import Mathlib

/-!
Verification of the data-validation checks.

A shallow embedding of `src/data-validation/validator.py`: a small set of
tabular data-quality checks over an in-memory Dataset loaded from a CSV
file, plus the aggregator that runs all checks and renders a report, and
the CLI entry point that maps the overall verdict to an exit status.

Modelling conventions:
* A pandas cell is a `Cell`: a string, a number (modelled as `Rat`; CSV
  numerics are finite floats, and none of the checks depends on float
  rounding), or the null/NaN marker.
* A `DataFrame` is a `Dataset`: a header (column names) plus rows of cells.
* The loader (`pd.read_csv`) is not itself embedded; instead `Dataset.Wf`
  characterises exactly the frames `read_csv` can produce: distinct column
  labels, rectangular rows, and homogeneous columns (every column is
  all-strings-or-null or all-numbers-or-null — `read_csv` never mixes
  strings and numbers inside one column).
* pandas operations that can raise are embedded in `Except String`:
  the `.str` accessor used by `validate_text_case` raises unless the
  column is empty or holds at least one string (object dtype).  All other
  operations used by the checks are total on well-formed frames.
* Elementwise `!=` on a pandas Series treats NaN as unequal to everything
  (including NaN), while `DataFrame.duplicated` and `Series.equals` treat
  NaN cells in matching positions as equal; the embedding keeps both
  notions apart (`pandasNe` versus decidable equality on `Cell`).
-/

namespace DataValidation

/-- A single cell of a loaded frame: a string, a number, or null/NaN. -/
inductive Cell where
  | str (s : String)
  | num (q : Rat)
  | null
deriving DecidableEq

/-- Is this cell a string? -/
def Cell.isStr : Cell → Bool
  | Cell.str _ => true
  | _ => false

/-- Is this cell the null/NaN marker? -/
def Cell.isNull : Cell → Bool
  | Cell.null => true
  | _ => false

/-- A loaded frame: column names in order, and rows of cells in order. -/
structure Dataset where
  cols : List String
  rows : List (List Cell)

/-- The values of column `c` in row order (`df[c]`).  Only used when
`c` is among the column labels; out-of-range lookups default to null. -/
def getCol (d : Dataset) (c : String) : List Cell :=
  d.rows.map (fun row => row.getD (d.cols.indexOf c) Cell.null)

/-- Is this cell a number or null? -/
def Cell.isNumOrNull : Cell → Bool
  | Cell.str _ => false
  | _ => true

/-- A column is homogeneous when it is all strings-or-null or all
numbers-or-null: `read_csv` parses a column either entirely as numbers
(unparseable columns stay entirely strings), with empty fields as NaN. -/
def colHomogeneous (cells : List Cell) : Bool :=
  cells.all (fun v => v.isStr || v.isNull) || cells.all (fun v => v.isNumOrNull)

/-- Exactly the frames `pd.read_csv` can produce: distinct column labels
(`read_csv` mangles duplicates), rectangular rows, homogeneous columns. -/
def Dataset.Wf (d : Dataset) : Prop :=
  d.cols.Nodup ∧ (∀ row ∈ d.rows, row.length = d.cols.length) ∧
    ∀ c ∈ d.cols, colHomogeneous (getCol d c) = true

instance (d : Dataset) : Decidable d.Wf := by
  unfold Dataset.Wf; infer_instance

/-- Number of null cells among `cells` (`series.isna().sum()`). -/
def countNullCells (cells : List Cell) : Nat :=
  cells.countP Cell.isNull

/-- Elementwise pandas `!=`: NaN compares unequal to everything,
including NaN itself; other cells compare by value. -/
def pandasNe (a b : Cell) : Bool :=
  a.isNull || b.isNull || decide (a ≠ b)

/-- Python `str.lower()`: lowercase character by character. -/
def strLower (s : String) : String :=
  ⟨s.data.map Char.toLower⟩

/-- One cell under `.str.lower()` on an object-dtype series: strings are
lowercased, every non-string (null included) becomes NaN. -/
def lowerCell : Cell → Cell
  | Cell.str s => Cell.str (strLower s)
  | _ => Cell.null

/-- Count `len(df[df[column].str.lower() != df[column]])`: how many cells
differ (in the pandas elementwise sense) from their lowercased form. -/
def nonLowerCount (cells : List Cell) : Nat :=
  cells.countP (fun v => pandasNe (lowerCell v) v)

/-- Model of `validate_text_case`.  The `.str` accessor raises unless the column
has object dtype, i.e. is empty or holds at least one string; the raise
is modelled as `Except.error`.  Otherwise the check passes iff no cell
differs from its lowercased form under elementwise `!=`. -/
def validate_text_case (d : Dataset) (column : String) :
    Except String (Bool × String) :=
  if column ∈ d.cols then
    let vals := getCol d column
    if vals.isEmpty || vals.any Cell.isStr then
      let n := nonLowerCount vals
      if n > 0 then
        Except.ok (false, "Found " ++ toString n ++ " rows with non-lowercase " ++ column)
      else
        Except.ok (true, "✓ All " ++ column ++ " values are lowercase")
    else
      Except.error ("Can only use .str accessor with string values!")
  else
    Except.ok (false, "Column \x27" ++ column ++ "\x27 not found in dataset")

/-- Model of `"\n".join(results)` and friends: join strings with a separator. -/
def joinSep (sep : String) : List String → String
  | [] => ""
  | [s] => s
  | s :: rest => s ++ sep ++ joinSep sep rest

/-- The sub-message `validate_no_nulls` produces for one named column;
it depends only on that column's presence and null count. -/
def noNullsMsg (d : Dataset) (col : String) : String :=
  if col ∈ d.cols then
    let nc := countNullCells (getCol d col)
    if nc > 0 then "✗ " ++ col ++ ": " ++ toString nc ++ " NULL values found"
    else "✓ " ++ col ++ ": No NULL values"
  else "Column \x27" ++ col ++ "\x27 not found"

/-- The loop body of `validate_no_nulls`: append this column's
sub-message and update the running `all_valid` flag. -/
def noNullsStep (d : Dataset) (acc : List String × Bool) (col : String) :
    List String × Bool :=
  if col ∈ d.cols then
    let nc := countNullCells (getCol d col)
    if nc > 0 then
      (acc.1 ++ ["✗ " ++ col ++ ": " ++ toString nc ++ " NULL values found"], false)
    else
      (acc.1 ++ ["✓ " ++ col ++ ": No NULL values"], acc.2)
  else
    (acc.1 ++ ["Column \x27" ++ col ++ "\x27 not found"], false)

/-- Model of `validate_no_nulls`: loop over the named columns, collecting one
sub-message per column and a conjunction flag; the message is the
newline-join of all sub-messages. -/
def validate_no_nulls (d : Dataset) (columns : List String) : Bool × String :=
  let r := columns.foldl (noNullsStep d) ([], true)
  (r.2, joinSep ("\n") r.1)

/-- Model of `df.duplicated()` with the default `keep=first`: flag each row that
is equal (NaN-equal included) to some earlier row.  First argument is
the accumulator of rows already seen. -/
def dupFlags : List (List Cell) → List (List Cell) → List Bool
  | _, [] => []
  | seen, r :: rest => decide (r ∈ seen) :: dupFlags (r :: seen) rest

/-- Model of `df.duplicated().sum()`: the number of flagged rows. -/
def duplicateCount (d : Dataset) : Nat :=
  (dupFlags [] d.rows).count true

/-- Model of `validate_no_duplicates`: pass iff no row repeats an earlier one;
on failure the message carries the duplicate count. -/
def validate_no_duplicates (d : Dataset) : Bool × String :=
  if duplicateCount d > 0 then
    (false, "✗ Found " ++ toString (duplicateCount d) ++ " duplicate rows")
  else (true, "✓ No duplicate rows (total: " ++ toString d.rows.length ++ " rows)")

/-- The comparison `Series.sort_values` sorts by, as a Bool-valued
relation: null/NaN is placed last regardless of direction
(`na_position=last`), numbers compare by value, strings
lexicographically.  A column mixing strings and numbers cannot arise
from `read_csv` (see `Dataset.Wf`), so the cross-type branches are
never exercised on well-formed frames (pandas would raise there). -/
def cellLe (ascending : Bool) : Cell → Cell → Bool
  | _, Cell.null => true
  | Cell.null, _ => false
  | Cell.num x, Cell.num y => if ascending then decide (x ≤ y) else decide (y ≤ x)
  | Cell.str s, Cell.str t => if ascending then decide (s ≤ t) else decide (t ≤ s)
  | Cell.num _, Cell.str _ => true
  | Cell.str _, Cell.num _ => false

/-- The relation `cellLe` in decidable form, to feed the sort. -/
def cellRel (ascending : Bool) : Cell → Cell → Prop :=
  fun a b => cellLe ascending a b = true

instance (ascending : Bool) : DecidableRel (cellRel ascending) :=
  fun a b => inferInstanceAs (Decidable (cellLe ascending a b = true))

/-- Model of `validate_sorted`: pass iff the column's values in row order equal
the same values sorted in the requested direction (`Series.equals`
compares positionally with NaN equal to NaN; sorting a list of values
is order-insensitive among equal cells, so any correct sort gives the
same sequence). -/
def validate_sorted (d : Dataset) (column : String) (ascending : Bool) :
    Bool × String :=
  if column ∈ d.cols then
    let vals := getCol d column
    let sortedVals := List.insertionSort (cellRel ascending) vals
    if sortedVals = vals then
      (true, "✓ Data is sorted by " ++ column ++ " (" ++
        (if ascending then "ascending" else "descending") ++ ")")
    else
      (false, "✗ Data is NOT sorted by " ++ column)
  else
    (false, "Column \x27" ++ column ++ "\x27 not found in dataset")

/-- Model of `validate_row_count`: pass iff the row count lies in the inclusive
range; bounds are Python ints. -/
def validate_row_count (d : Dataset) (expected_min expected_max : Int) :
    Bool × String :=
  let actual : Int := d.rows.length
  let range := toString expected_min ++ "-" ++ toString expected_max
  if expected_min ≤ actual ∧ actual ≤ expected_max then
    (true, "✓ Row count: " ++ toString actual ++ " (expected " ++ range ++ ")")
  else
    (false, "✗ Row count: " ++ toString actual ++ " (expected " ++ range ++ ")")

/-- The fixed schema contract. -/
def expected_columns : List String :=
  ["id", "name", "email", "age", "salary", "department", "status"]

/-- Python set equality of two column collections. -/
def setEqB (a b : List String) : Bool :=
  a.all (fun c => b.contains c) && b.all (fun c => a.contains c)

/-- Render a Python set of strings, e.g. `{'age', 'salary'}`. -/
def formatStrSet (l : List String) : String :=
  "\x7b" ++ joinSep (", ") (l.map (fun s => "\x27" ++ s ++ "\x27")) ++ "\x7d"

/-- The missing columns on a schema mismatch (`expected - actual`). -/
def schemaMissing (d : Dataset) : List String :=
  expected_columns.filter (fun c => !(d.cols.contains c))

/-- The unexpected columns on a schema mismatch (`actual - expected`). -/
def schemaExtra (d : Dataset) : List String :=
  d.cols.dedup.filter (fun c => !(expected_columns.contains c))

/-- Model of `validate_schema`: pass iff the column set equals the expected set
exactly; on failure the message lists the missing and extra columns
(each line only when its set is non-empty). -/
def validate_schema (d : Dataset) : Bool × String :=
  if setEqB d.cols expected_columns then
    (true, "✓ Schema matches: " ++ toString d.cols.dedup.length ++ " columns")
  else
    (false, "✗ Schema mismatch:" ++
      (if (schemaMissing d).isEmpty then "" else
        "\n  Missing: " ++ formatStrSet (schemaMissing d)) ++
      (if (schemaExtra d).isEmpty then "" else
        "\n  Extra: " ++ formatStrSet (schemaExtra d)))

/-- Model of `run_all_validations`: the six checks with their fixed parameters, in
dict insertion order.  Building the Python dict evaluates every entry;
only `validate_text_case` can raise, and a raise propagates out of the
aggregator, so the result is `Except`-valued. -/
def run_all_validations (d : Dataset) :
    Except String (List (String × (Bool × String))) :=
  match validate_text_case d ("status") with
  | Except.error e => Except.error e
  | Except.ok tc =>
    Except.ok [("schema", validate_schema d),
               ("row_count", validate_row_count d 24 25),
               ("text_case", tc),
               ("no_nulls", validate_no_nulls d ["age", "salary"]),
               ("no_duplicates", validate_no_duplicates d),
               ("sorted", validate_sorted d ("name") true)]

/-- One block of the printed report for one check. -/
def reportBlock (entry : String × (Bool × String)) : String :=
  "[" ++ (if entry.2.1 then "PASS" else "FAIL") ++ "] " ++ entry.1.toUpper ++
    "\n       " ++ entry.2.2 ++ "\n\n"

/-- The separator line of the report: 60 copies of the equals sign
(`"=" * 60` in the source). -/
def sepLine : String :=
  String.mk (List.replicate 60 (Char.ofNat 61))

/-- Model of `print_report`: the overall verdict (the conjunction of the `passed`
fields, computed by the same one-pass flag loop as the source) together
with the text the source prints. -/
def print_report (results : List (String × (Bool × String))) : Bool × String :=
  let all_passed := results.foldl (fun acc r => acc && r.2.1) true
  let text := "\n" ++ sepLine ++ "\n" ++ "RHOMBUS AI DATA VALIDATION REPORT" ++
    "\n" ++ sepLine ++ "\n\n" ++ joinSep ("") (results.map reportBlock) ++
    sepLine ++ "\n" ++
    (if all_passed then "OVERALL: ✓ ALL VALIDATIONS PASSED"
     else "OVERALL: ✗ SOME VALIDATIONS FAILED") ++ "\n" ++ sepLine ++ "\n"
  (all_passed, text)

/-- What one run of `main` observably does. -/
structure MainOutcome where
  exitCode : Nat
  report : Option String
  errorMsg : Option String
deriving DecidableEq

/-- Model of `main` after argument parsing, as a function of the load attempt
(`load_csv` either yields a frame or raises file-not-found/parse
errors, which the `try` block turns into an error print and exit 1).
A raise inside `run_all_validations` lands in the same handler, so no
partial report is ever printed. -/
def mainRun (loaded : Except String Dataset) : MainOutcome :=
  match loaded with
  | Except.error e => ⟨1, none, some ("\nERROR: " ++ e)⟩
  | Except.ok d =>
    match run_all_validations d with
    | Except.error e => ⟨1, none, some ("\nERROR: " ++ e)⟩
    | Except.ok results =>
      let pr := print_report results
      ⟨if pr.1 then 0 else 1, some pr.2, none⟩

/-- Did this fallible computation succeed? -/
def exceptOk {ε α : Type} : Except ε α → Bool
  | Except.ok _ => true
  | Except.error _ => false

/-- The string `msg` mentions `c`: `c` occurs contiguously inside `msg`. -/
def mentions (msg c : String) : Prop :=
  ∃ pre post, msg.data = pre ++ c.data ++ post

/-- How many occurrences of row `r` in `l` are left unflagged by
`duplicated()` (these are the first occurrences). -/
def unflaggedOcc (l : List (List Cell)) (r : List Cell) : Nat :=
  (l.zip (dupFlags [] l)).countP (fun p => decide (p.1 = r) && !p.2)

/-- How many occurrences of row `r` in `l` are flagged by
`duplicated()` (these are the occurrences after the first). -/
def flaggedOcc (l : List (List Cell)) (r : List Cell) : Nat :=
  (l.zip (dupFlags [] l)).countP (fun p => decide (p.1 = r) && p.2)

/-- A loadable frame whose `status` column is numeric: `read_csv` infers
an int dtype for it, so the `.str` accessor raises. -/
def dNumStatus : Dataset :=
  ⟨["status"], [[Cell.num 1], [Cell.num 2]]⟩

/-- A loadable frame with the expected schema and fully clean data. -/
def dGood : Dataset :=
  ⟨expected_columns,
   [[Cell.num 1, Cell.str ("alice"), Cell.str ("alice@x.com"), Cell.num 30,
     Cell.num 100, Cell.str ("HR"), Cell.str ("active")],
    [Cell.num 2, Cell.str ("bob"), Cell.str ("bob@x.com"), Cell.num 31,
     Cell.num 110, Cell.str ("Sales"), Cell.str ("active")]]⟩

/-- The six results `run_all_validations` produces on `dGood`. -/
def resultsGood : List (String × (Bool × String)) :=
  [("schema", validate_schema dGood),
   ("row_count", validate_row_count dGood 24 25),
   ("text_case", (true, "✓ All status values are lowercase")),
   ("no_nulls", validate_no_nulls dGood ["age", "salary"]),
   ("no_duplicates", validate_no_duplicates dGood),
   ("sorted", validate_sorted dGood ("name") true)]

/-- A loadable frame whose string `status` column contains a null. -/
def dMessy : Dataset :=
  ⟨["status"], [[Cell.str ("Active")], [Cell.null]]⟩

/-- A loadable frame with a duplicated row. -/
def dDup : Dataset :=
  ⟨["id"], [[Cell.num 1], [Cell.num 1], [Cell.num 2]]⟩

/-- A loadable frame with a wrong column set. -/
def dSchemaBad : Dataset :=
  ⟨["id", "extra1"], []⟩

/-! ## Theorems -/

/-- Folding the report's conjunction flag over a list is the `all` of the
`passed` fields. -/
lemma foldl_and_eq (l : List (String × (Bool × String))) (b : Bool) :
    l.foldl (fun acc r => acc && r.2.1) b = (b && l.all (fun r => r.2.1)) := by
  induction l generalizing b with
  | nil => simp
  | cons x rest ih => simp [List.foldl_cons, ih, Bool.and_assoc]

/-- The report's overall flag is true iff every check result passed. -/
lemma print_report_passed_iff (results : List (String × (Bool × String))) :
    (print_report results).1 = true ↔ ∀ r ∈ results, r.2.1 = true := by
  simp [print_report, foldl_and_eq, List.all_eq_true]

/-- The flags plus the rows not yet seen account for every row. -/
lemma dupFlags_count_card (l : List (List Cell)) :
    ∀ seen : List (List Cell),
      (dupFlags seen l).count true + (l.toFinset \ seen.toFinset).card = l.length := by
  induction l with
  | nil => intro seen; simp [dupFlags]
  | cons x rest ih =>
    intro seen
    by_cases hx : x ∈ seen
    · have hd : dupFlags seen (x :: rest) = true :: dupFlags (x :: seen) rest := by
        simp [dupFlags, hx]
      have h1 : (x :: seen).toFinset = seen.toFinset := by
        simp [List.toFinset_cons, Finset.insert_eq_self.2 (List.mem_toFinset.2 hx)]
      have h2 : (x :: rest).toFinset \ seen.toFinset = rest.toFinset \ seen.toFinset := by
        simp [List.toFinset_cons, Finset.insert_sdiff_of_mem _ (List.mem_toFinset.2 hx)]
      have h3 := ih (x :: seen)
      rw [h1] at h3
      rw [hd, List.count_cons_self, h2, List.length_cons]
      omega
    · have hd : dupFlags seen (x :: rest) = false :: dupFlags (x :: seen) rest := by
        simp [dupFlags, hx]
      have h1 : rest.toFinset \ (x :: seen).toFinset =
          (rest.toFinset \ seen.toFinset).erase x := by
        ext a
        simp only [Finset.mem_sdiff, List.toFinset_cons, Finset.mem_insert,
          Finset.mem_erase, List.mem_toFinset]
        tauto
      have h2 : (x :: rest).toFinset \ seen.toFinset =
          insert x (rest.toFinset \ seen.toFinset) := by
        simp [List.toFinset_cons,
          Finset.insert_sdiff_of_not_mem _ (fun h => hx (List.mem_toFinset.1 h))]
      have h3 := ih (x :: seen)
      rw [h1] at h3
      rw [hd, List.count_cons_of_ne (by simp), h2, List.length_cons]
      by_cases hmem : x ∈ rest.toFinset \ seen.toFinset
      · have hcard : (insert x (rest.toFinset \ seen.toFinset)).card =
            (rest.toFinset \ seen.toFinset).card := by
          rw [Finset.insert_eq_self.2 hmem]
        have herase := Finset.card_erase_of_mem hmem
        have hpos : 0 < (rest.toFinset \ seen.toFinset).card :=
          Finset.card_pos.2 ⟨x, hmem⟩
        rw [hcard]
        omega
      · have hcard := Finset.card_insert_of_not_mem hmem
        have herase : (rest.toFinset \ seen.toFinset).erase x =
            rest.toFinset \ seen.toFinset := Finset.erase_eq_of_not_mem hmem
        rw [herase] at h3
        rw [hcard]
        omega

/-- Distinct-element count versus length characterises `Nodup`. -/
lemma toFinset_card_eq_length_iff {α : Type} [DecidableEq α] (l : List α) :
    l.toFinset.card = l.length ↔ l.Nodup := by
  simpa using Multiset.toFinset_card_eq_card_iff_nodup (m := (l : Multiset α))

/-- The duplicate count plus the number of distinct rows is the total
number of rows. -/
lemma duplicateCount_add_card (d : Dataset) :
    duplicateCount d + d.rows.toFinset.card = d.rows.length := by
  have := dupFlags_count_card d.rows []
  simpa [duplicateCount] using this

/-- Each row value not yet seen gets exactly one unflagged occurrence. -/
lemma zip_dupFlags_unflagged (r : List Cell) (l : List (List Cell)) :
    ∀ seen : List (List Cell),
      (l.zip (dupFlags seen l)).countP (fun p => decide (p.1 = r) && !p.2) =
        (if r ∈ seen then 0 else if r ∈ l then 1 else 0) := by
  induction l with
  | nil => intro seen; simp [dupFlags]
  | cons x rest ih =>
    intro seen
    simp only [dupFlags, List.zip_cons_cons, List.countP_cons]
    rw [ih (x :: seen)]
    by_cases hxr : x = r
    · subst hxr
      by_cases hr : x ∈ seen
      · simp [hr, List.mem_cons]
      · simp [hr, List.mem_cons]
    · have hmem : (r ∈ x :: seen) ↔ (r ∈ seen) := by
        simp only [List.mem_cons]
        exact ⟨fun h => h.elim (fun he => absurd he.symm hxr) id, Or.inr⟩
      have hmem2 : (r ∈ x :: rest) ↔ (r ∈ rest) := by
        simp only [List.mem_cons]
        exact ⟨fun h => h.elim (fun he => absurd he.symm hxr) id, Or.inr⟩
      simp [hxr, hmem, hmem2]

/-- Counting occurrences of a row through the zip with its flags. -/
lemma zip_dupFlags_total (r : List Cell) (l : List (List Cell)) :
    ∀ seen : List (List Cell),
      (l.zip (dupFlags seen l)).countP (fun p => decide (p.1 = r)) = l.count r := by
  induction l with
  | nil => intro seen; simp [dupFlags]
  | cons x rest ih =>
    intro seen
    simp only [dupFlags, List.zip_cons_cons, List.countP_cons, List.count_cons,
      ih (x :: seen)]
    by_cases hxr : x = r
    · simp [hxr]
    · simp [hxr, beq_iff_eq]

/-- A count splits across a second predicate. -/
lemma countP_split {α : Type} (p q : α → Bool) :
    ∀ l : List α,
      l.countP (fun v => p v && q v) + l.countP (fun v => p v && !(q v)) =
        l.countP p := by
  intro l
  induction l with
  | nil => simp
  | cons hd rest ih =>
    simp only [List.countP_cons]
    cases hp : p hd <;> cases hq : q hd <;> simp [hp, hq] <;> omega

/-- C7: `validate_row_count(D, min, max)` passes iff
`min <= |D| <= max`; the boundary counts `min` and `max` pass, and
`min - 1` and `max + 1` fail. -/
theorem validate_row_count_spec (d : Dataset) (mn mx : Int) (h : mn ≤ mx) :
    ((validate_row_count d mn mx).1 = true ↔
      (mn ≤ (d.rows.length : Int) ∧ (d.rows.length : Int) ≤ mx)) ∧
    (((d.rows.length : Int) = mn ∨ (d.rows.length : Int) = mx) →
      (validate_row_count d mn mx).1 = true) ∧
    (((d.rows.length : Int) = mn - 1 ∨ (d.rows.length : Int) = mx + 1) →
      (validate_row_count d mn mx).1 = false) := by
  simp only [validate_row_count]
  split_ifs with hc
  · refine ⟨by simpa using hc, fun _ => rfl, fun hb => ?_⟩
    rcases hb with hb | hb <;> omega
  · refine ⟨by simpa using hc, fun hb => ?_, fun _ => rfl⟩
    rcases hb with hb | hb <;> omega

/-- C7 witness: a two-row frame against the inclusive range `[1, 2]`. -/
theorem validate_row_count_spec_witness :
    (validate_row_count dGood 1 2).1 = true :=
  (validate_row_count_spec dGood 1 2 (by decide)).2.1 (Or.inr (by decide))

/-- C6: `validate_no_duplicates(D)` passes iff no two rows of `D` are
element-wise identical, and on failure the message carries the
duplicate count. -/
theorem validate_no_duplicates_spec (d : Dataset) :
    ((validate_no_duplicates d).1 = true ↔ d.rows.Nodup) ∧
    (¬ d.rows.Nodup →
      (validate_no_duplicates d).2 =
        "✗ Found " ++ toString (duplicateCount d) ++ " duplicate rows" ∧
      0 < duplicateCount d) := by
  have hsum := duplicateCount_add_card d
  have hiff := toFinset_card_eq_length_iff d.rows
  have hzero : duplicateCount d = 0 ↔ d.rows.Nodup := by
    constructor
    · intro h0; exact hiff.1 (by omega)
    · intro hn; have := hiff.2 hn; omega
  constructor
  · simp only [validate_no_duplicates]
    split_ifs with hc
    · simp only [Bool.false_eq_true, false_iff]
      intro hn
      have := hzero.2 hn
      omega
    · simp only [true_iff]
      exact hzero.1 (by omega)
  · intro hn
    have hpos : 0 < duplicateCount d := by
      rcases Nat.eq_zero_or_pos (duplicateCount d) with h0 | h0
      · exact absurd (hzero.1 h0) hn
      · exact h0
    refine ⟨?_, hpos⟩
    simp only [validate_no_duplicates]
    rw [if_pos hpos]

/-- C6 witness: a frame with one duplicated row fails with count 1. -/
theorem validate_no_duplicates_spec_witness :
    (validate_no_duplicates dDup).2 =
      "✗ Found " ++ toString (duplicateCount dDup) ++ " duplicate rows" ∧
    0 < duplicateCount dDup :=
  (validate_no_duplicates_spec dDup).2 (by decide)

/-- C10: the duplicate count is the total row count minus the number of
distinct rows; per group of identical rows only the occurrences after
the first are flagged; the check passes on an empty frame. -/
theorem duplicate_count_spec (d : Dataset) :
    duplicateCount d = d.rows.length - d.rows.toFinset.card ∧
    (∀ r ∈ d.rows, unflaggedOcc d.rows r = 1 ∧
      flaggedOcc d.rows r = d.rows.count r - 1) ∧
    (d.rows = [] → (validate_no_duplicates d).1 = true) := by
  have hsum := duplicateCount_add_card d
  refine ⟨by omega, fun r hr => ?_, fun hnil => ?_⟩
  · have hun : unflaggedOcc d.rows r = 1 := by
      have := zip_dupFlags_unflagged r d.rows []
      simpa [unflaggedOcc, hr] using this
    refine ⟨hun, ?_⟩
    have hsplit := countP_split
      (fun p : List Cell × Bool => decide (p.1 = r)) (fun p => p.2)
      (d.rows.zip (dupFlags [] d.rows))
    have htot := zip_dupFlags_total r d.rows []
    have hflag : flaggedOcc d.rows r + unflaggedOcc d.rows r = d.rows.count r := by
      simpa [flaggedOcc, unflaggedOcc, htot] using hsplit
    omega
  · simp [validate_no_duplicates, duplicateCount, hnil, dupFlags]

/-- C10 witness: on a frame of three rows with one duplicate, the count
is `3 - 2 = 1`. -/
theorem duplicate_count_spec_witness :
    duplicateCount dDup = dDup.rows.length - dDup.rows.toFinset.card ∧
    unflaggedOcc dDup.rows [Cell.num 1] = 1 ∧
    flaggedOcc dDup.rows [Cell.num 1] = dDup.rows.count [Cell.num 1] - 1 :=
  ⟨(duplicate_count_spec dDup).1,
   ((duplicate_count_spec dDup).2.1 [Cell.num 1] (by decide)).1,
   ((duplicate_count_spec dDup).2.1 [Cell.num 1] (by decide)).2⟩

/-- Mention survives prefixing. -/
lemma mentions_append_left (a m c : String) (h : mentions m c) :
    mentions (a ++ m) c := by
  rcases h with ⟨pre, post, hm⟩
  exact ⟨a.data ++ pre, post, by simp [String.data_append, hm]⟩

/-- Mention survives suffixing. -/
lemma mentions_append_right (m b c : String) (h : mentions m c) :
    mentions (m ++ b) c := by
  rcases h with ⟨pre, post, hm⟩
  exact ⟨pre, post ++ b.data, by simp [String.data_append, hm]⟩

/-- Every string mentions itself. -/
lemma mentions_refl (c : String) : mentions c c :=
  ⟨[], [], by simp⟩

/-- The quoted rendering of a string mentions it. -/
lemma mentions_quote (c : String) : mentions ("\x27" ++ c ++ "\x27") c :=
  mentions_append_right _ _ _ (mentions_append_left _ _ _ (mentions_refl c))

/-- The comma-joined quoted rendering mentions each of its elements. -/
lemma mentions_joinSep_quote (c : String) (l : List String) (h : c ∈ l) :
    mentions (joinSep (", ") (l.map (fun s => "\x27" ++ s ++ "\x27"))) c := by
  induction l with
  | nil => cases h
  | cons hdc tlc ih =>
    rcases List.mem_cons.1 h with he | hm
    · subst he
      cases tlc with
      | nil => simpa [joinSep] using mentions_quote c
      | cons y ys =>
        simp only [List.map_cons, joinSep]
        exact mentions_append_right _ _ _
          (mentions_append_right _ _ _ (mentions_quote c))
    · have hin := ih hm
      cases tlc with
      | nil => cases hm
      | cons y ys =>
        simp only [List.map_cons, joinSep] at hin ⊢
        exact mentions_append_left _ _ _ hin

/-- The rendered set mentions each of its elements. -/
lemma mentions_formatStrSet (c : String) (l : List String) (h : c ∈ l) :
    mentions (formatStrSet l) c :=
  mentions_append_right _ _ _
    (mentions_append_left _ _ _ (mentions_joinSep_quote c l h))

/-- The test `List.contains` agrees with membership. -/
lemma contains_iff_mem (l : List String) (c : String) :
    l.contains c = true ↔ c ∈ l :=
  List.elem_iff

/-- Python set equality of two string lists. -/
lemma setEqB_iff (a b : List String) :
    setEqB a b = true ↔ ∀ c, c ∈ a ↔ c ∈ b := by
  simp only [setEqB, Bool.and_eq_true, List.all_eq_true]
  constructor
  · rintro ⟨h1, h2⟩ c
    exact ⟨fun hc => (contains_iff_mem b c).1 (h1 c hc),
           fun hc => (contains_iff_mem a c).1 (h2 c hc)⟩
  · intro h
    exact ⟨fun c hc => (contains_iff_mem b c).2 ((h c).1 hc),
           fun c hc => (contains_iff_mem a c).2 ((h c).2 hc)⟩

/-- The schema check's flag is the set-equality test. -/
lemma validate_schema_fst (d : Dataset) :
    (validate_schema d).1 = setEqB d.cols expected_columns := by
  by_cases hc : setEqB d.cols expected_columns = true
  · simp only [validate_schema, if_pos hc]
    simp [hc]
  · have hf : setEqB d.cols expected_columns = false := by simpa using hc
    simp only [validate_schema, if_neg hc]
    simp [hf]

/-- Membership in the computed missing-column set. -/
lemma mem_schemaMissing (d : Dataset) (c : String) :
    c ∈ schemaMissing d ↔ (c ∈ expected_columns ∧ c ∉ d.cols) := by
  simp [schemaMissing, List.mem_filter]

/-- Membership in the computed extra-column set. -/
lemma mem_schemaExtra (d : Dataset) (c : String) :
    c ∈ schemaExtra d ↔ (c ∈ d.cols ∧ c ∉ expected_columns) := by
  simp [schemaExtra, List.mem_filter, List.mem_dedup]

/-- C3: the schema check passes iff the column set equals the expected
seven exactly; adding or removing any single column from a passing frame
flips the result; on failure the message names every missing and every
unexpected column. -/
theorem validate_schema_spec (d : Dataset) :
    ((validate_schema d).1 = true ↔ ∀ c, (c ∈ d.cols ↔ c ∈ expected_columns)) ∧
    (∀ d' : Dataset, ∀ c, (validate_schema d).1 = true → c ∉ d.cols →
      (∀ x, x ∈ d'.cols ↔ (x ∈ d.cols ∨ x = c)) →
      (validate_schema d').1 = false) ∧
    (∀ d' : Dataset, ∀ c, (validate_schema d).1 = true → c ∈ d.cols →
      (∀ x, x ∈ d'.cols ↔ (x ∈ d.cols ∧ x ≠ c)) →
      (validate_schema d').1 = false) ∧
    ((validate_schema d).1 = false → ∀ c,
      ((c ∈ expected_columns ∧ c ∉ d.cols) →
        mentions (validate_schema d).2 c) ∧
      ((c ∈ d.cols ∧ c ∉ expected_columns) →
        mentions (validate_schema d).2 c)) := by
  refine ⟨?_, ?_, ?_, ?_⟩
  · rw [validate_schema_fst]
    exact setEqB_iff d.cols expected_columns
  · intro d' c hpass hc hd'
    rcases Bool.eq_false_or_eq_true (validate_schema d').1 with ht | hf
    · exfalso
      rw [validate_schema_fst] at ht hpass
      have h1 := (setEqB_iff d'.cols expected_columns).1 ht
      have h0 := (setEqB_iff d.cols expected_columns).1 hpass
      have hcd' : c ∈ d'.cols := (hd' c).2 (Or.inr rfl)
      exact hc ((h0 c).2 ((h1 c).1 hcd'))
    · exact hf
  · intro d' c hpass hc hd'
    rcases Bool.eq_false_or_eq_true (validate_schema d').1 with ht | hf
    · exfalso
      rw [validate_schema_fst] at ht hpass
      have h1 := (setEqB_iff d'.cols expected_columns).1 ht
      have h0 := (setEqB_iff d.cols expected_columns).1 hpass
      have hcd' : c ∈ d'.cols := (h1 c).2 ((h0 c).1 hc)
      exact ((hd' c).1 hcd').2 rfl
    · exact hf
  · intro hfail c
    rw [validate_schema_fst] at hfail
    have hsnd : (validate_schema d).2 = "✗ Schema mismatch:" ++
        (if (schemaMissing d).isEmpty then "" else
          "\n  Missing: " ++ formatStrSet (schemaMissing d)) ++
        (if (schemaExtra d).isEmpty then "" else
          "\n  Extra: " ++ formatStrSet (schemaExtra d)) := by
      simp only [validate_schema]
      rw [if_neg (by simp [hfail])]
    constructor
    · intro ⟨hce, hcd⟩
      have hcm : c ∈ schemaMissing d := (mem_schemaMissing d c).2 ⟨hce, hcd⟩
      have hne : (schemaMissing d).isEmpty = false := by
        cases hl : schemaMissing d with
        | nil => rw [hl] at hcm; cases hcm
        | cons a b => simp [List.isEmpty]
      rw [hsnd, hne]
      simp only [Bool.false_eq_true, if_false]
      exact mentions_append_right _ _ _ (mentions_append_left _ _ _
        (mentions_append_left _ _ _ (mentions_formatStrSet c _ hcm)))
    · intro ⟨hcd, hce⟩
      have hcm : c ∈ schemaExtra d := (mem_schemaExtra d c).2 ⟨hcd, hce⟩
      have hne : (schemaExtra d).isEmpty = false := by
        cases hl : schemaExtra d with
        | nil => rw [hl] at hcm; cases hcm
        | cons a b => simp [List.isEmpty]
      rw [hsnd, hne]
      simp only [Bool.false_eq_true, if_false]
      exact mentions_append_left _ _ _
        (mentions_append_left _ _ _ (mentions_formatStrSet c _ hcm))

/-- C3 witness: a frame with columns `id` and `extra1` fails, and the
message names the missing `email` and the unexpected `extra1`. -/
theorem validate_schema_spec_witness :
    (validate_schema dSchemaBad).1 = false ∧
    mentions (validate_schema dSchemaBad).2 ("email") ∧
    mentions (validate_schema dSchemaBad).2 ("extra1") := by
  have hfalse : (validate_schema dSchemaBad).1 = false := by decide
  exact ⟨hfalse,
    ((validate_schema_spec dSchemaBad).2.2.2 hfalse ("email")).1
      ⟨by decide, by decide⟩,
    ((validate_schema_spec dSchemaBad).2.2.2 hfalse ("extra1")).2
      ⟨by decide, by decide⟩⟩

instance (ascending : Bool) : IsTotal Cell (cellRel ascending) := ⟨by
  intro a b
  cases ascending <;> cases a <;> cases b <;>
    simp [cellRel, cellLe] <;> exact le_total _ _⟩

instance (ascending : Bool) : IsTrans Cell (cellRel ascending) := ⟨by
  intro a b c hab hbc
  cases ascending <;> cases a <;> cases b <;> cases c <;>
    simp [cellRel, cellLe] at hab hbc ⊢ <;>
    first
    | exact le_trans hab hbc
    | exact le_trans hbc hab⟩

/-- A list of cells is its own sort exactly when adjacent cells are
ordered. -/
lemma insertionSort_eq_self_iff (ascending : Bool) (l : List Cell) :
    List.insertionSort (cellRel ascending) l = l ↔
      List.Chain' (cellRel ascending) l := by
  constructor
  · intro h
    have hs := List.sorted_insertionSort (cellRel ascending) l
    rw [h] at hs
    exact List.chain'_iff_pairwise.2 hs
  · intro h
    exact List.Sorted.insertionSort_eq (List.chain'_iff_pairwise.1 h)

/-- C4: for a present column, the sort check passes iff the column's
values in row order are non-decreasing under the sort comparison
(nulls ordered last, ties allowed); for an absent column it fails with
the column-not-found message. -/
theorem validate_sorted_spec (d : Dataset) (c : String) (h : d.Wf) :
    (c ∈ d.cols →
      ((validate_sorted d c true).1 = true ↔
        List.Chain' (cellRel true) (getCol d c))) ∧
    (c ∉ d.cols →
      validate_sorted d c true =
        (false, "Column \x27" ++ c ++ "\x27 not found in dataset")) := by
  constructor
  · intro hc
    simp only [validate_sorted, if_pos hc]
    split_ifs with hs
    · simp only [true_iff]
      exact (insertionSort_eq_self_iff true (getCol d c)).1 hs
    · simp only [Bool.false_eq_true, false_iff]
      intro hch
      exact hs ((insertionSort_eq_self_iff true (getCol d c)).2 hch)
  · intro hc
    simp only [validate_sorted, if_neg hc]

/-- C4 witness: `dGood` is sorted by `name`, and a missing column
fails with the not-found message. -/
theorem validate_sorted_spec_witness :
    ((validate_sorted dGood ("name") true).1 = true ↔
      List.Chain' (cellRel true) (getCol dGood ("name"))) ∧
    validate_sorted dGood ("zip") true =
      (false, "Column \x27" ++ "zip" ++ "\x27 not found in dataset") :=
  ⟨(validate_sorted_spec dGood ("name") (by decide)).1 (by decide),
   (validate_sorted_spec dGood ("zip") (by decide)).2 (by decide)⟩

/-- Unrolling the `validate_no_nulls` loop: the accumulated messages are
one per named column, and the flag is the conjunction of per-column
validity. -/
lemma noNulls_foldl (d : Dataset) (columns : List String) :
    ∀ (acc : List String) (b : Bool),
      columns.foldl (noNullsStep d) (acc, b) =
        (acc ++ columns.map (noNullsMsg d),
         b && columns.all (fun c =>
           decide (c ∈ d.cols) && decide (countNullCells (getCol d c) = 0))) := by
  induction columns with
  | nil => intro acc b; simp
  | cons col rest ih =>
    intro acc b
    simp only [List.foldl_cons, List.map_cons, List.all_cons]
    by_cases hc : col ∈ d.cols
    · by_cases hn : countNullCells (getCol d col) > 0
      · have hne : ¬(countNullCells (getCol d col) = 0) := by omega
        have hstep : noNullsStep d (acc, b) col =
            (acc ++ ["✗ " ++ col ++ ": " ++
              toString (countNullCells (getCol d col)) ++ " NULL values found"],
             false) := by
          simp [noNullsStep, hc, hn]
        rw [hstep, ih]
        simp [noNullsMsg, hc, hn, hne, List.append_assoc]
      · have h0 : countNullCells (getCol d col) = 0 := by omega
        have hstep : noNullsStep d (acc, b) col =
            (acc ++ ["✓ " ++ col ++ ": No NULL values"], b) := by
          simp [noNullsStep, hc, hn]
        rw [hstep, ih]
        simp [noNullsMsg, hc, hn, h0, List.append_assoc, Bool.and_assoc]
    · have hstep : noNullsStep d (acc, b) col =
          (acc ++ ["Column \x27" ++ col ++ "\x27 not found"], false) := by
        simp [noNullsStep, hc]
      rw [hstep, ih]
      simp [noNullsMsg, hc, List.append_assoc]

/-- C5: the null check passes in aggregate iff every named column is
present with zero nulls, and its message is the newline-concatenation
of one independent sub-message per named column. -/
theorem validate_no_nulls_spec (d : Dataset) (columns : List String) :
    ((validate_no_nulls d columns).1 = true ↔
      ∀ c ∈ columns, c ∈ d.cols ∧ countNullCells (getCol d c) = 0) ∧
    (validate_no_nulls d columns).2 =
      joinSep ("\n") (columns.map (noNullsMsg d)) := by
  have h := noNulls_foldl d columns [] true
  constructor
  · simp [validate_no_nulls, h, List.all_eq_true]
  · simp [validate_no_nulls, h]

/-- C5 witness: a frame whose string column has one null and whose
`age` column is missing fails, with both sub-messages reported. -/
theorem validate_no_nulls_spec_witness :
    ((validate_no_nulls dMessy ["status", "age"]).1 = true ↔
      ∀ c ∈ ["status", "age"], c ∈ dMessy.cols ∧
        countNullCells (getCol dMessy c) = 0) ∧
    (validate_no_nulls dMessy ["status", "age"]).2 =
      joinSep ("\n") (["status", "age"].map (noNullsMsg dMessy)) :=
  validate_no_nulls_spec dMessy ["status", "age"]

/-- C2 counterexample: a loadable frame whose `status` column is
numeric makes `validate_text_case` raise instead of returning a
CheckResult. -/
theorem validate_text_case_raises_on_numeric_column :
    dNumStatus.Wf ∧
    validate_text_case dNumStatus ("status") =
      Except.error ("Can only use .str accessor with string values!") :=
  ⟨by decide, rfl⟩

/-- C2 (amended): on loadable frames, `validate_text_case` returns a
CheckResult exactly when the target column is absent, empty, or holds
at least one string; otherwise (a numeric or all-null column) it
raises. -/
theorem validate_text_case_ok_iff (d : Dataset) (c : String) (h : d.Wf) :
    exceptOk (validate_text_case d c) = true ↔
      (c ∉ d.cols ∨ getCol d c = [] ∨ (getCol d c).any Cell.isStr = true) := by
  by_cases hc : c ∈ d.cols
  · by_cases hd : ((getCol d c).isEmpty || (getCol d c).any Cell.isStr) = true
    · simp only [validate_text_case, if_pos hc, if_pos hd]
      have hr : getCol d c = [] ∨ (getCol d c).any Cell.isStr = true := by
        rcases Bool.or_eq_true_iff.1 hd with he | ha
        · exact Or.inl (by simpa using he)
        · exact Or.inr ha
      split_ifs with hn <;>
        (simp only [exceptOk, eq_self_iff_true, true_iff]; exact Or.inr hr)
    · simp only [validate_text_case, if_pos hc, if_neg hd]
      simp only [exceptOk, Bool.false_eq_true, false_iff]
      intro hcontra
      rcases hcontra with h1 | h2 | h3
      · exact h1 hc
      · exact hd (by simp [h2])
      · exact hd (by simp [h3])
  · simp [validate_text_case, hc, exceptOk]

/-- C2 witness: on `dGood` the `status` column holds strings, so the
check returns a result. -/
theorem validate_text_case_ok_iff_witness :
    exceptOk (validate_text_case dGood ("status")) = true ↔
      ("status" ∉ dGood.cols ∨ getCol dGood ("status") = [] ∨
        (getCol dGood ("status")).any Cell.isStr = true) :=
  validate_text_case_ok_iff dGood ("status") (by decide)

/-- C9: in a present string column (object dtype) containing at least
one null, a null never equals its own lowercased form under pandas
`!=`, every null row is counted among the non-lowercase rows, and the
check fails reporting that count. -/
theorem validate_text_case_null_fails (d : Dataset) (c : String)
    (h1 : d.Wf) (h2 : c ∈ d.cols)
    (h3 : (getCol d c).any Cell.isStr = true)
    (h4 : 0 < countNullCells (getCol d c)) :
    pandasNe (lowerCell Cell.null) Cell.null = true ∧
    validate_text_case d c = Except.ok (false,
      "Found " ++ toString (nonLowerCount (getCol d c)) ++
        " rows with non-lowercase " ++ c) ∧
    countNullCells (getCol d c) ≤ nonLowerCount (getCol d c) := by
  have hle : countNullCells (getCol d c) ≤ nonLowerCount (getCol d c) := by
    apply List.countP_mono_left
    intro v _ hnull
    cases v with
    | null => rfl
    | str s => simp [Cell.isNull] at hnull
    | num q => simp [Cell.isNull] at hnull
  have hpos : 0 < nonLowerCount (getCol d c) := lt_of_lt_of_le h4 hle
  refine ⟨rfl, ?_, hle⟩
  simp only [validate_text_case, if_pos h2]
  rw [if_pos (by simp [h3]), if_pos hpos]

/-- C9 witness: a string `status` column with one null fails the check
with the null row counted. -/
theorem validate_text_case_null_fails_witness :
    pandasNe (lowerCell Cell.null) Cell.null = true ∧
    validate_text_case dMessy ("status") = Except.ok (false,
      "Found " ++ toString (nonLowerCount (getCol dMessy ("status"))) ++
        " rows with non-lowercase " ++ "status") ∧
    countNullCells (getCol dMessy ("status")) ≤
      nonLowerCount (getCol dMessy ("status")) :=
  validate_text_case_null_fails dMessy ("status")
    (by decide) (by decide) (by decide) (by decide)

/-- C1 counterexample: on a loadable frame with a numeric `status`
column the aggregator does not produce the six results (the text-case
check raises and the remaining checks never run). -/
theorem run_all_skips_checks_on_numeric_status :
    dNumStatus.Wf ∧ exceptOk (run_all_validations dNumStatus) = false :=
  ⟨by decide, rfl⟩

/-- C1 (amended): whenever the aggregator returns a result list — i.e.
whenever no check raises — the list holds the results of all six checks
in the fixed order (so no check's failing result prevents any other from
running), and the reported overall verdict equals the conjunction of the
six `passed` fields. -/
theorem run_all_validations_complete (d : Dataset)
    (results : List (String × (Bool × String)))
    (h : run_all_validations d = Except.ok results) :
    results.map Prod.fst =
      ["schema", "row_count", "text_case", "no_nulls", "no_duplicates",
       "sorted"] ∧
    (∃ tc, validate_text_case d ("status") = Except.ok tc ∧
      results = [("schema", validate_schema d),
                 ("row_count", validate_row_count d 24 25),
                 ("text_case", tc),
                 ("no_nulls", validate_no_nulls d ["age", "salary"]),
                 ("no_duplicates", validate_no_duplicates d),
                 ("sorted", validate_sorted d ("name") true)]) ∧
    ((print_report results).1 = true ↔ ∀ r ∈ results, r.2.1 = true) := by
  cases htc : validate_text_case d ("status") with
  | error e =>
    rw [run_all_validations, htc] at h
    cases h
  | ok tc =>
    rw [run_all_validations, htc] at h
    injection h with hres
    subst hres
    exact ⟨rfl, ⟨tc, rfl, rfl⟩, print_report_passed_iff _⟩

/-- C1 witness: on `dGood` the aggregator yields all six results. -/
theorem run_all_validations_complete_witness :
    resultsGood.map Prod.fst =
      ["schema", "row_count", "text_case", "no_nulls", "no_duplicates",
       "sorted"] ∧
    (∃ tc, validate_text_case dGood ("status") = Except.ok tc ∧
      resultsGood = [("schema", validate_schema dGood),
                 ("row_count", validate_row_count dGood 24 25),
                 ("text_case", tc),
                 ("no_nulls", validate_no_nulls dGood ["age", "salary"]),
                 ("no_duplicates", validate_no_duplicates dGood),
                 ("sorted", validate_sorted dGood ("name") true)]) ∧
    ((print_report resultsGood).1 = true ↔
      ∀ r ∈ resultsGood, r.2.1 = true) :=
  run_all_validations_complete dGood resultsGood (by rfl)

/-- C8: the entry point exits 0 iff the load succeeded, no check raised,
and every check passed; it exits 1 otherwise; on a load failure the
error is reported and no report (not even a partial one) is produced,
and likewise when a check raises. -/
theorem mainRun_spec (loaded : Except String Dataset) :
    ((mainRun loaded).exitCode = 0 ↔
      ∃ d results, loaded = Except.ok d ∧
        run_all_validations d = Except.ok results ∧
        ∀ r ∈ results, r.2.1 = true) ∧
    ((mainRun loaded).exitCode = 0 ∨ (mainRun loaded).exitCode = 1) ∧
    (∀ e, loaded = Except.error e →
      (mainRun loaded).exitCode = 1 ∧ (mainRun loaded).report = none ∧
        (mainRun loaded).errorMsg = some ("\nERROR: " ++ e)) ∧
    (∀ d, loaded = Except.ok d → exceptOk (run_all_validations d) = false →
      (mainRun loaded).exitCode = 1 ∧ (mainRun loaded).report = none) := by
  cases loaded with
  | error e =>
    refine ⟨?_, Or.inr rfl, ?_, ?_⟩
    · simp [mainRun]
    · intro e' he
      injection he with hee
      subst hee
      exact ⟨rfl, rfl, rfl⟩
    · intro d hd
      cases hd
  | ok d =>
    cases hr : run_all_validations d with
    | error e2 =>
      refine ⟨?_, ?_, ?_, ?_⟩
      · simp only [mainRun, hr]
        constructor
        · intro h10
          cases h10
        · rintro ⟨d', results, hd', hrun, _⟩
          injection hd' with hdd
          subst hdd
          rw [hr] at hrun
          cases hrun
      · simp [mainRun, hr]
      · intro e' he
        cases he
      · intro d' hd' _
        injection hd' with hdd
        subst hdd
        simp [mainRun, hr]
    | ok results =>
      refine ⟨?_, ?_, ?_, ?_⟩
      · simp only [mainRun, hr]
        constructor
        · intro hz
          split_ifs at hz with hp
          exact ⟨d, results, rfl, hr,
            (print_report_passed_iff results).1 hp⟩
        · rintro ⟨d', results', hd', hrun, hall⟩
          injection hd' with hdd
          subst hdd
          rw [hr] at hrun
          injection hrun with hres
          subst hres
          have hp := (print_report_passed_iff results).2 hall
          simp [hp]
      · simp only [mainRun, hr]
        split_ifs <;> simp
      · intro e' he
        cases he
      · intro d' hd' hfail
        injection hd' with hdd
        subst hdd
        rw [hr] at hfail
        simp [exceptOk] at hfail

/-- C8 witness: a failed load exits 1 with an error printed and no
report produced. -/
theorem mainRun_spec_witness :
    (mainRun (Except.error ("File not found: missing.csv"))).exitCode = 1 ∧
    (mainRun (Except.error ("File not found: missing.csv"))).report = none ∧
    (mainRun (Except.error ("File not found: missing.csv"))).errorMsg =
      some ("\nERROR: " ++ "File not found: missing.csv") :=
  (mainRun_spec (Except.error ("File not found: missing.csv"))).2.2.1
    ("File not found: missing.csv") rfl

end DataValidation
